import Mathlib

set_option maxHeartbeats 1000000

/- Batteries marks the arithmetic on Rat irreducible, which blocks the
evaluation of concrete rational computations inside decide; restore the
default reducibility so that closed counterexamples evaluate. -/
set_option allowUnsafeReducibility true in
attribute [semireducible] Rat.mul Rat.add Rat.sub Rat.inv

/- Shallow embedding of the frame-selection pipeline implemented in
src/backend/ad_processing/frame_extractor.py.

Modelling conventions:
- Python floats are modelled as exact rationals.
- Raw image buffers are an abstract type parameter Img; the external
  decode/similarity primitives (ffmpeg frame extraction, cv2 histogram
  correlation, cv2 resize and DCT, grayscale mean) are function parameters,
  so every pipeline stage is a pure function of its inputs, exactly as the
  Python code is once those collaborators are fixed.
- Python sorted and list.sort are stable; they are modelled by a stable
  insertion sort by a rational key.
- while loops are modelled with an explicit fuel that matches the loop
  bound visible in the source. -/

/-- Metrics bundle attached to each jump-cut boundary candidate, mirroring
the dict built in detect_jump_cut_timestamps. -/
structure Metrics where
  combined_similarity : ℚ
  histogram_similarity : ℚ
  delta_intensity : ℚ
  combined_score : ℚ
deriving DecidableEq

/-- Scene dictionary produced by define_scenes_from_timestamps.  The source
key named end is a reserved word in Lean, so it is called stop here. -/
structure SceneI where
  start : ℚ
  stop : ℚ
  duration : ℚ
  jump_cut_timestamp : ℚ
deriving DecidableEq

/-- The FrameData dataclass (image buffer, timestamp, type tag, optional
similarity score, represented duration and scene id). -/
structure FrameData (Img : Type) where
  image : Img
  timestamp : ℚ
  frame_type : String
  similarity_score : Option ℚ := none
  duration : Option ℚ := none
  scene_id : Option Nat := none
deriving DecidableEq

/-- Stable insertion of x into a list already sorted by key: x goes after
every element whose key is ≤ its own, which is how Python sorted breaks
ties (stability). -/
def insertByKey {α : Type} (key : α → ℚ) (x : α) : List α → List α
  | [] => [x]
  | y :: ys => if key y ≤ key x then y :: insertByKey key x ys else x :: y :: ys

/-- Python sorted(list, key=...) : a stable sort by a rational key. -/
def pySort {α : Type} (key : α → ℚ) (l : List α) : List α :=
  l.foldl (fun acc x => insertByKey key x acc) []

/-- Python max(list) for a nonempty list of integers. -/
def pyMax (l : List ℤ) : ℤ := l.foldl max (l.headD 0)

/-- First pass of _allocate_frames_to_scenes: every scene except the last
gets max(1, int(proportion * total_frames)) capped at 6; the last scene
gets the remainder total_frames - frames_allocated, which the source then
also caps at 6 (the min is applied outside the if/else). -/
def allocGo (total_duration : ℚ) (total_frames : ℤ) : List SceneI → ℤ → List ℤ
  | [], _ => []
  | [_scene], frames_allocated => [min (total_frames - frames_allocated) 6]
  | scene :: scene2 :: rest, frames_allocated =>
      let proportion := scene.duration / total_duration
      let frames_for_scene := min (max 1 ⌊proportion * (total_frames : ℚ)⌋) 6
      frames_for_scene ::
        allocGo total_duration total_frames (scene2 :: rest)
          (frames_allocated + frames_for_scene)

/-- The reconciliation while-loop of _allocate_frames_to_scenes: while
frames_allocated > total_frames, decrement the first scene holding the
current maximum, stopping if that maximum is already 1.  Each productive
iteration lowers frames_allocated by one, so frames_allocated -
total_frames is an exact fuel bound for the loop. -/
def reconcileGo (total_frames : ℤ) : ℕ → List ℤ → ℤ → List ℤ
  | 0, allocation, _ => allocation
  | fuel + 1, allocation, frames_allocated =>
      if total_frames < frames_allocated then
        let m := pyMax allocation
        if 1 < m then
          reconcileGo total_frames fuel (allocation.set (allocation.indexOf m) (m - 1))
            (frames_allocated - 1)
        else allocation
      else allocation

/-- The function _allocate_frames_to_scenes: proportional allocation followed by the
reconciliation loop. -/
def _allocate_frames_to_scenes (scenes : List SceneI) (total_frames : ℤ) : List ℤ :=
  if scenes.isEmpty then []
  else
    let total_duration := (scenes.map (fun s => s.duration)).sum
    let allocation := allocGo total_duration total_frames scenes 0
    let frames_allocated := allocation.sum
    reconcileGo total_frames (frames_allocated - total_frames).toNat allocation frames_allocated

/-- numpy median of a list of rationals: sort, then take the middle element
(odd length) or the mean of the two middle elements (even length). -/
def npMedian (l : List ℚ) : ℚ :=
  let s := pySort (fun q => q) l
  let n := s.length
  if n % 2 = 1 then s.getD (n / 2) 0
  else (s.getD (n / 2 - 1) 0 + s.getD (n / 2) 0) / 2

/-- The inner phash of _perceptual_hash: resize the image to 32x32
grayscale (external cv2 primitive resizeGray32), apply the 2D DCT
(external cv2 primitive dct), crop the top-left 16x16 low-frequency block,
and binarize each coefficient against the block median.  The bit string is
the row-major flattening, a bit being 1 exactly when the coefficient is
strictly greater than the median. -/
def phash {Img : Type} (resizeGray32 : Img → List (List ℚ))
    (dct : List (List ℚ) → List (List ℚ)) (image : Img) : List Bool :=
  let resized := resizeGray32 image
  let dct_low_freq := ((dct resized).take 16).map (fun row => row.take 16)
  let flat := dct_low_freq.flatten
  let median := npMedian flat
  flat.map (fun c => decide (median < c))

/-- The function _perceptual_hash: similarity = 1 - hamming_distance / max_distance,
where the hamming distance counts positions at which the two 256-bit
fingerprints differ and max_distance is the fingerprint length. -/
def _perceptual_hash {Img : Type} (resizeGray32 : Img → List (List ℚ))
    (dct : List (List ℚ) → List (List ℚ)) (frame1 frame2 : Img) : ℚ :=
  let hash1 := phash resizeGray32 dct frame1
  let hash2 := phash resizeGray32 dct frame2
  let hamming_distance := ((hash1.zip hash2).filter (fun p => p.1 != p.2)).length
  let max_distance := hash1.length
  1 - (hamming_distance : ℚ) / (max_distance : ℚ)

/-- The function _delta_intensity: the grayscale mean of each frame is an external
primitive (numpy mean over the cv2 grayscale conversion); the similarity is
exp(-|mean1 - mean2| / 30), stated over the reals because exp is
transcendental. -/
noncomputable def _delta_intensity {Img : Type} (grayMean : Img → ℝ)
    (frame1 frame2 : Img) : ℝ :=
  Real.exp (-|grayMean frame1 - grayMean frame2| / 30)

/-- The function _combined_similarity: hist_sim * 0.25 + hash_sim * 0.75. -/
def _combined_similarity {Img : Type} (histSim phashSim : Img → Img → ℚ)
    (frame1 frame2 : Img) : ℚ :=
  histSim frame1 frame2 * (1 / 4) + phashSim frame1 frame2 * (3 / 4)

/-- Sampling loop of detect_jump_cut_timestamps.  The i-th sample instant
is i/6 (6 samples per second); the loop runs while the instant is below
video_length.  A failed extraction skips the instant without touching the
previous-frame reference; a successful one records a boundary exactly when
the combined similarity is below the threshold, carrying combined_score =
(hist_sim + delta_int) / 2, and always becomes the new previous frame. -/
def detectGo {Img : Type} (extract : ℚ → Option Img)
    (histSim deltaInt : Img → Img → ℚ) (resizeGray32 : Img → List (List ℚ))
    (dct : List (List ℚ) → List (List ℚ)) (threshold video_length : ℚ) :
    Img → ℕ → ℕ → List (ℚ × Metrics)
  | _, _, 0 => []
  | previous_frame, i, fuel + 1 =>
      let current_time : ℚ := (i : ℚ) / 6
      if current_time < video_length then
        match extract current_time with
        | none =>
            detectGo extract histSim deltaInt resizeGray32 dct threshold video_length
              previous_frame (i + 1) fuel
        | some current_frame =>
            let hist_sim := histSim previous_frame current_frame
            let delta_int := deltaInt previous_frame current_frame
            let combined_sim :=
              _combined_similarity histSim (_perceptual_hash resizeGray32 dct)
                previous_frame current_frame
            let rest :=
              detectGo extract histSim deltaInt resizeGray32 dct threshold video_length
                current_frame (i + 1) fuel
            if combined_sim < threshold then
              (current_time, ⟨combined_sim, hist_sim, delta_int, (hist_sim + delta_int) / 2⟩)
                :: rest
            else rest
      else []

/-- detect_jump_cut_timestamps: the t=0 sentinel with all-zero metrics is
always emitted first; if the first frame cannot be extracted the sentinel
alone is returned, otherwise the 6-samples-per-second comparison loop runs
to the end of the video.  The fuel ceil(6 * video_length) dominates the
number of sample instants strictly below video_length. -/
def detect_jump_cut_timestamps {Img : Type} (extract : ℚ → Option Img)
    (histSim deltaInt : Img → Img → ℚ) (resizeGray32 : Img → List (List ℚ))
    (dct : List (List ℚ) → List (List ℚ)) (threshold video_length : ℚ) :
    List (ℚ × Metrics) :=
  let first_metrics : Metrics := ⟨0, 0, 0, 0⟩
  let sentinel := [((0 : ℚ), first_metrics)]
  match extract 0 with
  | none => sentinel
  | some previous_frame =>
      sentinel ++
        detectGo extract histSim deltaInt resizeGray32 dct threshold video_length
          previous_frame 1 (⌈6 * video_length⌉.toNat)

/-- select_most_significant_timestamps: if at most max_count candidates,
return them unchanged; otherwise stably sort by combined_score ascending,
take the first max_count, and stably re-sort the selection by timestamp. -/
def select_most_significant_timestamps (jump_cut_timestamps : List (ℚ × Metrics))
    (max_count : ℕ) : List (ℚ × Metrics) :=
  if jump_cut_timestamps.length ≤ max_count then jump_cut_timestamps
  else
    let sorted_timestamps := pySort (fun x => x.2.combined_score) jump_cut_timestamps
    let selected_timestamps := sorted_timestamps.take max_count
    pySort (fun x => x.1) selected_timestamps

/-- Scene construction of define_scenes_from_timestamps: consecutive
timestamps delimit a scene, the last timestamp's scene runs to the end of
the video, and scenes of duration ≤ 0.5 s are dropped. -/
def buildScenes : List ℚ → ℚ → List SceneI
  | [], _ => []
  | [t], video_length =>
      if 1 / 2 < video_length - t then [⟨t, video_length, video_length - t, t⟩] else []
  | t :: t2 :: rest, video_length =>
      (if 1 / 2 < t2 - t then [⟨t, t2, t2 - t, t⟩] else []) ++
        buildScenes (t2 :: rest) video_length

/-- define_scenes_from_timestamps: sort the candidates chronologically,
project to the bare timestamps, and build the scene list. -/
def define_scenes_from_timestamps (timestamps : List (ℚ × Metrics))
    (video_length : ℚ) : List SceneI :=
  if timestamps.isEmpty then []
  else
    let timestamp_values := (pySort (fun x => x.1) timestamps).map (fun x => x.1)
    buildScenes timestamp_values video_length

/-- Position list of _extract_scene_frames: n=1 gives the midpoint, n=2 the
third points, n=3 start/middle/end, and n≥4 the start, n-2 evenly spaced
interior points i/(n-1), and the end. -/
def scenePositions (frame_count : ℕ) : List ℚ :=
  if frame_count = 1 then [1 / 2]
  else if frame_count = 2 then [1 / 3, 2 / 3]
  else if frame_count = 3 then [0, 1 / 2, 1]
  else
    [0] ++
      (if 2 < frame_count then
        (List.range (frame_count - 2)).map
          (fun i : ℕ => ((i : ℚ) + 1) / (((frame_count - 2 : ℕ) : ℚ) + 1))
      else []) ++ [1]

/-- Timestamp computation of _extract_scene_frames: the 100% position is
replaced by end - 0.1, and every timestamp is clamped by
max(start, min(t, end - 0.1)). -/
def sceneTimestamp (scene : SceneI) (position : ℚ) : ℚ :=
  max scene.start
    (min
      (if 1 ≤ position then scene.stop - 1 / 10
       else scene.start + scene.duration * position)
      (scene.stop - 1 / 10))

/-- The function _extract_scene_frames: non-positive allocations yield no frames;
otherwise one frame per computed position where extraction succeeds, the
position of index 0 tagged jump_cut and all others scene_interval, each
stamped with the scene id. -/
def _extract_scene_frames {Img : Type} (extract : ℚ → Option Img) (scene : SceneI)
    (frame_count : ℤ) (scene_id : ℕ) : List (FrameData Img) :=
  if frame_count ≤ 0 then []
  else
    let positions := scenePositions frame_count.toNat
    positions.enum.filterMap (fun ip =>
      let timestamp := sceneTimestamp scene ip.2
      match extract timestamp with
      | some img =>
          some { image := img, timestamp := timestamp,
                 frame_type := if ip.1 = 0 then "jump_cut" else "scene_interval",
                 similarity_score := none, duration := none, scene_id := some scene_id }
      | none => none)

/-- Scene loop of extract_frames_from_scenes: scenes are processed in order
with 1-based ids; after each scene the accumulated list is checked against
max_frames and, once it reaches it, truncated with no further scenes
processed. -/
def scenesLoop {Img : Type} (extract : ℚ → Option Img) (max_frames : ℕ) :
    List (SceneI × ℤ) → ℕ → List (FrameData Img) → List (FrameData Img)
  | [], _, all_frames => all_frames
  | (scene, frames_for_scene) :: rest, scene_id, all_frames =>
      let all_frames2 := all_frames ++ _extract_scene_frames extract scene frames_for_scene scene_id
      if max_frames ≤ all_frames2.length then all_frames2.take max_frames
      else scenesLoop extract max_frames rest (scene_id + 1) all_frames2

/-- extract_frames_from_scenes: allocate, loop over scenes, sort the
result by timestamp and truncate to max_frames. -/
def extract_frames_from_scenes {Img : Type} (extract : ℚ → Option Img)
    (scenes : List SceneI) (max_frames : ℕ) : List (FrameData Img) :=
  if scenes.isEmpty then []
  else
    let frame_allocation := _allocate_frames_to_scenes scenes (max_frames : ℤ)
    let all_frames := scenesLoop extract max_frames (scenes.zip frame_allocation) 1 []
    (pySort (fun f => f.timestamp) all_frames).take max_frames

/-- Loop of extract_interval_frames_to_target: for i in range(target), the
frame at (i+1) * interval is extracted and tagged interval, breaking once
the timestamp reaches video_length. -/
def intervalGo {Img : Type} (extract : ℚ → Option Img) (video_length interval : ℚ) :
    ℕ → ℕ → List (FrameData Img)
  | _, 0 => []
  | i, fuel + 1 =>
      let timestamp := ((i : ℚ) + 1) * interval
      if video_length ≤ timestamp then []
      else
        match extract timestamp with
        | some img =>
            { image := img, timestamp := timestamp, frame_type := "interval",
              similarity_score := none, duration := none, scene_id := none } ::
              intervalGo extract video_length interval (i + 1) fuel
        | none => intervalGo extract video_length interval (i + 1) fuel

/-- extract_interval_frames_to_target with interval
video_length / (target_count + 1). -/
def extract_interval_frames_to_target {Img : Type} (extract : ℚ → Option Img)
    (video_length : ℚ) (target_count : ℕ) : List (FrameData Img) :=
  intervalGo extract video_length (video_length / ((target_count : ℚ) + 1)) 0 target_count

/-- extract_frames_from_timestamps: an empty candidate list falls back to
uniform interval extraction; otherwise the candidates are ranked down to
max_frames when over budget, segmented into scenes, and sampled. -/
def extract_frames_from_timestamps {Img : Type} (extract : ℚ → Option Img)
    (jump_cut_timestamps : List (ℚ × Metrics)) (video_length : ℚ)
    (max_frames : ℕ) : List (FrameData Img) :=
  if jump_cut_timestamps.isEmpty then
    extract_interval_frames_to_target extract video_length max_frames
  else
    let selected_timestamps :=
      if max_frames < jump_cut_timestamps.length then
        select_most_significant_timestamps jump_cut_timestamps max_frames
      else jump_cut_timestamps
    let scenes := define_scenes_from_timestamps selected_timestamps video_length
    extract_frames_from_scenes extract scenes max_frames

/-- calculate_frame_durations: every frame represents the time up to the
next frame's timestamp, the last up to the end of the video. -/
def calculate_frame_durations {Img : Type} : List (FrameData Img) → ℚ → List (FrameData Img)
  | [], _ => []
  | [f], video_length => [{ f with duration := some (video_length - f.timestamp) }]
  | f :: g :: rest, video_length =>
      { f with duration := some (g.timestamp - f.timestamp) } ::
        calculate_frame_durations (g :: rest) video_length

/-- Sum of the annotated represented-durations of a frame list. -/
def durSum {Img : Type} (l : List (FrameData Img)) : ℚ :=
  (l.map (fun f => (f.duration.getD 0))).sum

/-- extract_frames, the orchestrator: detect boundaries, run the
timestamp-based extraction under the frame cap, annotate durations. -/
def extract_frames {Img : Type} (extract : ℚ → Option Img)
    (histSim deltaInt : Img → Img → ℚ) (resizeGray32 : Img → List (List ℚ))
    (dct : List (List ℚ) → List (List ℚ)) (threshold video_length : ℚ)
    (max_frames_per_video : ℕ) : List (FrameData Img) :=
  let jump_cut_timestamps :=
    detect_jump_cut_timestamps extract histSim deltaInt resizeGray32 dct threshold video_length
  let frames :=
    extract_frames_from_timestamps extract jump_cut_timestamps video_length max_frames_per_video
  calculate_frame_durations frames video_length

/-- Temporary file name used by FrameData.to_base64: built from the frame
timestamp and the current wall-clock second int(time.time()). -/
def tempName (timestamp : ℚ) (now : ℕ) : String :=
  "temp_frame_" ++ toString timestamp ++ "_" ++ toString now ++ ".jpg"

/-- Writing a file: the temp directory is an association list from path to
byte content, with the newest write in front. -/
def fsWrite (fs : List (String × List ℕ)) (path : String) (content : List ℕ) :
    List (String × List ℕ) :=
  (path, content) :: fs

/-- Reading a file back from the temp directory. -/
def fsRead (fs : List (String × List ℕ)) (path : String) : Option (List ℕ) :=
  (fs.find? (fun e => e.1 == path)).map (fun e => e.2)

/-- FrameData.to_base64.  The PIL conversion (to_pil plus RGB-mode
normalization), JPEG encoding at a quality, JPEG decoding, size probing,
Lanczos resizing and base64 encoding are external deterministic primitives.
The method saves the normalized image to a temp file whose name depends on
the frame timestamp and on the wall clock, loads it back, downscales so the
longest side is at most max_size (with floors and a 1-pixel minimum exactly
as in the source), re-encodes, and wraps the bytes as a data URI; an empty
empty encoded byte string is an error (modelled as none, as the source raises). -/
def to_base64 {Img : Type} (toPilRGB : Img → Img) (jpegSave : Img → ℕ → List ℕ)
    (jpegLoad : List ℕ → Img) (dims : Img → ℕ × ℕ) (resize : Img → ℕ → ℕ → Img)
    (b64encode : List ℕ → String) (max_size quality : ℕ) (now : ℕ)
    (frame_timestamp : ℚ) (image : Img) : Option String :=
  let pil_img := toPilRGB image
  let temp_path := tempName frame_timestamp now
  let fs := fsWrite [] temp_path (jpegSave pil_img quality)
  match fsRead fs temp_path with
  | none => none
  | some bytes =>
      let saved_img := jpegLoad bytes
      let width := (dims saved_img).1
      let height := (dims saved_img).2
      let final_img :=
        if max_size < max width height then
          let new_width := max 1 (width * max_size / max width height)
          let new_height := max 1 (height * max_size / max width height)
          resize saved_img new_width new_height
        else saved_img
      let image_data := jpegSave final_img quality
      if image_data.length = 0 then none
      else some ("data:image/jpeg;base64," ++ b64encode image_data)

/- ------------------------------------------------------------------ -/
/- Lemmas about the Frame Allocator                                    -/
/- ------------------------------------------------------------------ -/

lemma allocGo_nil (td : ℚ) (T a : ℤ) : allocGo td T [] a = [] := rfl

lemma allocGo_single (td : ℚ) (T a : ℤ) (s : SceneI) :
    allocGo td T [s] a = [min (T - a) 6] := rfl

lemma allocGo_cons2 (td : ℚ) (T a : ℤ) (s s2 : SceneI) (rest : List SceneI) :
    allocGo td T (s :: s2 :: rest) a =
      min (max 1 ⌊(s.duration / td) * (T : ℚ)⌋) 6 ::
        allocGo td T (s2 :: rest) (a + min (max 1 ⌊(s.duration / td) * (T : ℚ)⌋) 6) := rfl

lemma allocGo_length (td : ℚ) (T : ℤ) :
    ∀ (l : List SceneI) (a : ℤ), (allocGo td T l a).length = l.length := by
  intro l
  induction l with
  | nil => intro a; rfl
  | cons s rest ih =>
    intro a
    cases rest with
    | nil => rfl
    | cons s2 rest2 =>
      rw [allocGo_cons2, List.length_cons, List.length_cons, ih]

lemma allocGo_ne_nil (td : ℚ) (T : ℤ) (l : List SceneI) (a : ℤ) (h : l ≠ []) :
    allocGo td T l a ≠ [] := by
  intro hc
  have hlen := allocGo_length td T l a
  rw [hc] at hlen
  exact h (List.length_eq_zero.mp hlen.symm)

lemma allocGo_sum_add_le (td : ℚ) (T : ℤ) :
    ∀ (l : List SceneI) (a : ℤ), l ≠ [] → (allocGo td T l a).sum + a ≤ T := by
  intro l
  induction l with
  | nil => intro a h; exact absurd rfl h
  | cons s rest ih =>
    intro a _
    cases rest with
    | nil =>
      rw [allocGo_single]
      have h1 := min_le_left (T - a) 6
      simp only [List.sum_cons, List.sum_nil, add_zero]
      linarith
    | cons s2 rest2 =>
      rw [allocGo_cons2, List.sum_cons]
      have h2 := ih (a + min (max 1 ⌊(s.duration / td) * (T : ℚ)⌋) 6) (by simp)
      linarith

lemma allocGo_mem_le_six (td : ℚ) (T : ℤ) :
    ∀ (l : List SceneI) (a : ℤ), ∀ x ∈ allocGo td T l a, x ≤ 6 := by
  intro l
  induction l with
  | nil => intro a x hx; simp [allocGo_nil] at hx
  | cons s rest ih =>
    intro a x hx
    cases rest with
    | nil =>
      rw [allocGo_single] at hx
      simp at hx
      rw [hx]
      exact min_le_right _ 6
    | cons s2 rest2 =>
      rw [allocGo_cons2] at hx
      rcases List.mem_cons.mp hx with h | h
      · rw [h]; exact min_le_right _ 6
      · exact ih _ x h

lemma allocGo_dropLast_bounds (td : ℚ) (T : ℤ) :
    ∀ (l : List SceneI) (a : ℤ), ∀ x ∈ (allocGo td T l a).dropLast, 1 ≤ x ∧ x ≤ 6 := by
  intro l
  induction l with
  | nil => intro a x hx; simp [allocGo_nil] at hx
  | cons s rest ih =>
    intro a x hx
    cases rest with
    | nil => rw [allocGo_single] at hx; simp at hx
    | cons s2 rest2 =>
      rw [allocGo_cons2] at hx
      rw [List.dropLast_cons_of_ne_nil (allocGo_ne_nil td T (s2 :: rest2) _ (by simp))] at hx
      rcases List.mem_cons.mp hx with h | h
      · constructor
        · rw [h]
          exact le_min (le_max_left 1 _) (by norm_num)
        · rw [h]; exact min_le_right _ 6
      · exact ih _ x h

lemma allocGo_getLast (td : ℚ) (T : ℤ) :
    ∀ (l : List SceneI) (a : ℤ), l ≠ [] →
      (allocGo td T l a).getLast? =
        some (min (T - (a + ((allocGo td T l a).dropLast).sum)) 6) := by
  intro l
  induction l with
  | nil => intro a h; exact absurd rfl h
  | cons s rest ih =>
    intro a _
    cases rest with
    | nil =>
      rw [allocGo_single]
      simp
    | cons s2 rest2 =>
      rw [allocGo_cons2]
      have hne := allocGo_ne_nil td T (s2 :: rest2)
        (a + min (max 1 ⌊(s.duration / td) * (T : ℚ)⌋) 6) (by simp)
      obtain ⟨b, L, hbL⟩ := List.exists_cons_of_ne_nil hne
      rw [List.dropLast_cons_of_ne_nil hne, List.sum_cons]
      rw [hbL, List.getLast?_cons_cons, ← hbL]
      rw [ih _ (by simp)]
      congr 2
      ring

/-- For a nonempty scene list the first allocation pass already satisfies
frames_allocated ≤ total_frames (the last entry absorbs at most the
remainder), so the reconciliation loop has zero fuel and is the identity:
the allocator output is exactly the first pass. -/
lemma allocate_eq_allocGo (s : SceneI) (rest : List SceneI) (T : ℤ) :
    _allocate_frames_to_scenes (s :: rest) T =
      allocGo (((s :: rest).map (fun x => x.duration)).sum) T (s :: rest) 0 := by
  have hsum := allocGo_sum_add_le (((s :: rest).map (fun x => x.duration)).sum) T
    (s :: rest) 0 (by simp)
  rw [add_zero] at hsum
  show reconcileGo T
      ((allocGo (((s :: rest).map (fun x => x.duration)).sum) T (s :: rest) 0).sum - T).toNat
      (allocGo (((s :: rest).map (fun x => x.duration)).sum) T (s :: rest) 0)
      ((allocGo (((s :: rest).map (fun x => x.duration)).sum) T (s :: rest) 0).sum) =
    allocGo (((s :: rest).map (fun x => x.duration)).sum) T (s :: rest) 0
  rw [Int.toNat_of_nonpos (by linarith)]
  rfl

lemma length_le_sum_of_one_le :
    ∀ (l : List ℤ), (∀ x ∈ l, 1 ≤ x) → (l.length : ℤ) ≤ l.sum := by
  intro l
  induction l with
  | nil => intro _; simp
  | cons x xs ih =>
    intro h
    have h1 := h x (List.mem_cons_self x xs)
    have h2 := ih (fun y hy => h y (List.mem_cons_of_mem x hy))
    rw [List.sum_cons, List.length_cons]
    push_cast
    linarith

/- ------------------------------------------------------------------ -/
/- Claims C1, C5, C8: the Frame Allocator                              -/
/- ------------------------------------------------------------------ -/

/-- Claim C1, counterexample.  Two scenes of 10 s each with a budget of 30
frames: both scenes are capped at 6, the last scene's remainder 24 is also
capped at 6, and the reconciliation loop only ever runs when the budget is
exceeded, so the returned allocation [6, 6] sums to 12, not to the budget
30.  The claim that the allocation always sums exactly to the budget
(for budgets at least the scene count) is false. -/
theorem alloc_sum_ne_budget_cex :
    _allocate_frames_to_scenes [⟨0, 10, 10, 0⟩, ⟨10, 20, 10, 10⟩] 30 = [6, 6] ∧
    (_allocate_frames_to_scenes [⟨0, 10, 10, 0⟩, ⟨10, 20, 10, 10⟩] 30).sum ≠ 30 := by
  decide

/-- Claim C1 (amended): for every nonempty scene list with positive
durations and every budget at least the number of scenes, the allocation
returned by _allocate_frames_to_scenes has one entry per scene, sums to AT
MOST the budget (not exactly), every entry except possibly the last lies in
[1, 6], and no entry exceeds the per-scene cap 6. -/
theorem alloc_bounds_amended (s : SceneI) (rest : List SceneI) (T : ℤ)
    (hT : (((s :: rest) : List SceneI).length : ℤ) ≤ T)
    (hd : ∀ x ∈ s :: rest, 0 < x.duration) :
    (_allocate_frames_to_scenes (s :: rest) T).sum ≤ T ∧
    (_allocate_frames_to_scenes (s :: rest) T).length = (s :: rest).length ∧
    (∀ x ∈ (_allocate_frames_to_scenes (s :: rest) T).dropLast, 1 ≤ x ∧ x ≤ 6) ∧
    (∀ x ∈ _allocate_frames_to_scenes (s :: rest) T, x ≤ 6) := by
  rw [allocate_eq_allocGo]
  refine ⟨?_, allocGo_length _ _ _ _, allocGo_dropLast_bounds _ _ _ _,
    allocGo_mem_le_six _ _ _ _⟩
  have h := allocGo_sum_add_le (((s :: rest).map (fun x => x.duration)).sum) T
    (s :: rest) 0 (by simp)
  linarith

/-- Witness for alloc_bounds_amended at one scene of duration 1 and
budget 1. -/
theorem alloc_bounds_amended_witness :
    (_allocate_frames_to_scenes [⟨0, 1, 1, 0⟩] 1).sum ≤ 1 ∧
    (_allocate_frames_to_scenes [⟨0, 1, 1, 0⟩] 1).length =
      ([⟨0, 1, 1, 0⟩] : List SceneI).length ∧
    (∀ x ∈ (_allocate_frames_to_scenes [⟨0, 1, 1, 0⟩] 1).dropLast, 1 ≤ x ∧ x ≤ 6) ∧
    (∀ x ∈ _allocate_frames_to_scenes [⟨0, 1, 1, 0⟩] 1, x ≤ 6) :=
  alloc_bounds_amended ⟨0, 1, 1, 0⟩ [] 1 (by decide) (by decide)

/-- Claim C5, counterexample.  A single 10 s scene with a budget of 30:
the claim predicts the last scene's allocation is the raw remainder
30 - 0 = 30, exceeding 6.  In the source the min(·, 6) cap sits outside
the if/else and therefore applies to the last scene too, so the result is
[6], not [30]. -/
theorem last_alloc_capped_cex :
    _allocate_frames_to_scenes [⟨0, 10, 10, 0⟩] 30 = [6] ∧
    _allocate_frames_to_scenes [⟨0, 10, 10, 0⟩] 30 ≠ [30] := by
  decide

/-- Claim C5 (amended): the last scene's allocation is the remainder
budget - sum(previous allocations) CAPPED AT 6 like every other scene (the
cap is applied before the reconciliation loop, which then never runs), so
no allocation ever exceeds 6 on any input. -/
theorem last_alloc_min_formula (s : SceneI) (rest : List SceneI) (T : ℤ)
    (hd : ∀ x ∈ s :: rest, 0 < x.duration) :
    (_allocate_frames_to_scenes (s :: rest) T).getLast? =
      some (min (T - ((_allocate_frames_to_scenes (s :: rest) T).dropLast).sum) 6) ∧
    (∀ x ∈ _allocate_frames_to_scenes (s :: rest) T, x ≤ 6) := by
  rw [allocate_eq_allocGo]
  refine ⟨?_, allocGo_mem_le_six _ _ _ _⟩
  have h := allocGo_getLast (((s :: rest).map (fun x => x.duration)).sum) T
    (s :: rest) 0 (by simp)
  rw [zero_add] at h
  exact h

/-- Witness for last_alloc_min_formula at one scene of duration 10 and
budget 30. -/
theorem last_alloc_min_formula_witness :
    (_allocate_frames_to_scenes [⟨0, 10, 10, 0⟩] 30).getLast? =
      some (min (30 - ((_allocate_frames_to_scenes [⟨0, 10, 10, 0⟩] 30).dropLast).sum) 6) ∧
    (∀ x ∈ _allocate_frames_to_scenes [⟨0, 10, 10, 0⟩] 30, x ≤ 6) :=
  last_alloc_min_formula ⟨0, 10, 10, 0⟩ [] 30 (by decide)

/-- Claim C8: when the scene count exceeds the budget, every scene except
the last still receives at least 1 frame, the last scene's allocation (the
remainder, which the cap at 6 leaves untouched because it is nonpositive)
is zero or negative, and _extract_scene_frames returns no frames for any
nonpositive allocation. -/
theorem overbudget_alloc_behavior {Img : Type} (s : SceneI) (rest : List SceneI) (T : ℤ)
    (hlen : T < (((s :: rest) : List SceneI).length : ℤ))
    (hd : ∀ x ∈ s :: rest, 0 < x.duration) :
    (∀ x ∈ (_allocate_frames_to_scenes (s :: rest) T).dropLast, 1 ≤ x) ∧
    (∃ last, (_allocate_frames_to_scenes (s :: rest) T).getLast? = some last ∧ last ≤ 0) ∧
    (∀ (extract : ℚ → Option Img) (scene : SceneI) (scene_id : ℕ) (c : ℤ),
      c ≤ 0 → _extract_scene_frames extract scene c scene_id = []) := by
  rw [allocate_eq_allocGo]
  have hb := allocGo_dropLast_bounds (((s :: rest).map (fun x => x.duration)).sum) T
    (s :: rest) 0
  refine ⟨fun x hx => (hb x hx).1, ?_, ?_⟩
  · have hlast := allocGo_getLast (((s :: rest).map (fun x => x.duration)).sum) T
      (s :: rest) 0 (by simp)
    rw [zero_add] at hlast
    refine ⟨_, hlast, ?_⟩
    have hsum := length_le_sum_of_one_le
      ((allocGo (((s :: rest).map (fun x => x.duration)).sum) T (s :: rest) 0).dropLast)
      (fun x hx => (hb x hx).1)
    have hdl : ((allocGo (((s :: rest).map (fun x => x.duration)).sum) T
        (s :: rest) 0).dropLast).length = rest.length := by
      rw [List.length_dropLast, allocGo_length]
      rfl
    rw [hdl] at hsum
    have hTn : T ≤ (rest.length : ℤ) := by
      rw [List.length_cons] at hlen
      push_cast at hlen
      linarith
    have h1 := min_le_left
      (T - ((allocGo (((s :: rest).map (fun x => x.duration)).sum) T
        (s :: rest) 0).dropLast).sum) 6
    linarith
  · intro extract scene scene_id c hc
    unfold _extract_scene_frames
    rw [if_pos hc]

/-- Witness for overbudget_alloc_behavior: two unit scenes, budget 1. -/
theorem overbudget_alloc_behavior_witness :
    (∀ x ∈ (_allocate_frames_to_scenes [⟨0, 1, 1, 0⟩, ⟨1, 2, 1, 1⟩] 1).dropLast, 1 ≤ x) ∧
    (∃ last, (_allocate_frames_to_scenes [⟨0, 1, 1, 0⟩, ⟨1, 2, 1, 1⟩] 1).getLast? =
      some last ∧ last ≤ 0) ∧
    (∀ (extract : ℚ → Option Unit) (scene : SceneI) (scene_id : ℕ) (c : ℤ),
      c ≤ 0 → _extract_scene_frames extract scene c scene_id = []) :=
  overbudget_alloc_behavior ⟨0, 1, 1, 0⟩ [⟨1, 2, 1, 1⟩] 1 (by decide) (by decide)

/- ------------------------------------------------------------------ -/
/- Claim C2: the t=0 sentinel and the Significance Ranker             -/
/- ------------------------------------------------------------------ -/

/-- A concrete detector run over a half-second video in which every
comparison yields histogram similarity -3/4 (cv2 correlation of
anti-correlated histograms is negative, down to -1) and delta intensity 1/2
(exp values lie in (0, 1]).  Perceptual-hash similarity is 1 (identical
frames), so the combined similarity 9/16 is below the 0.65 threshold and
both sample instants 1/6 and 1/3 are recorded as boundaries with
combined_score (-3/4 + 1/2) / 2 = -1/8 < 0. -/
def sentinelDropBoundaries : List (ℚ × Metrics) :=
  detect_jump_cut_timestamps (fun _ => some (() : Unit)) (fun _ _ => -3/4)
    (fun _ _ => 1/2) (fun _ => [[0]]) id (13/20) (1/2)

/-- Claim C2, failing run.  The detector output does contain the t=0 entry
with combined_score 0, but 0 is NOT the minimum possible combined_score:
combined_score averages a histogram correlation (range [-1, 1]) with a
delta intensity (range (0, 1]) and can be negative.  With max count 1 the
ranker keeps only the 1/6 s boundary (score -1/8) and discards the t=0
sentinel, contradicting both the claim and the ranker docstring, which
promises the first timestamp is always kept. -/
theorem ranker_drops_sentinel_eval :
    ((0 : ℚ), (⟨0, 0, 0, 0⟩ : Metrics)) ∈ sentinelDropBoundaries ∧
    (sentinelDropBoundaries.map (fun e => e.2.combined_score) = [0, -1/8, -1/8]) ∧
    (select_most_significant_timestamps sentinelDropBoundaries 1).map (fun e => e.1) =
      [1/6] ∧
    (∀ e ∈ select_most_significant_timestamps sentinelDropBoundaries 1, e.1 ≠ 0) := by
  decide

/- ------------------------------------------------------------------ -/
/- Claim C3: the uniform-interval fallback                            -/
/- ------------------------------------------------------------------ -/

lemma intervalGo_frame_type {Img : Type} (extract : ℚ → Option Img) (L itv : ℚ) :
    ∀ (fuel i : ℕ), ∀ f ∈ intervalGo extract L itv i fuel, f.frame_type = "interval" := by
  intro fuel
  induction fuel with
  | zero => intro i f hf; simp [intervalGo] at hf
  | succ n ih =>
    intro i f hf
    rw [intervalGo] at hf
    split at hf
    · simp at hf
    · split at hf
      · rcases List.mem_cons.mp hf with h | h
        · rw [h]
        · exact ih (i + 1) f h
      · exact ih (i + 1) f hf

/-- The orchestrator run on a sentinel-only candidate list: the list is
nonempty, so the interval fallback is NOT taken; instead the whole video
becomes a single scene sampled at six positions. -/
def sentinelOnlyFrames : List (FrameData Unit) :=
  extract_frames_from_timestamps (fun _ => some ()) [(0, ⟨0, 0, 0, 0⟩)] 30 30

/-- Claim C3, counterexample.  For a 30 s video whose detection returned
only the t=0 sentinel, the orchestrator does not fall back to
interval-tagged frames: it produces six scene-sampled frames, the first
tagged jump_cut and the rest scene_interval, none tagged interval. -/
theorem sentinel_only_scene_path_cex :
    sentinelOnlyFrames.map (fun f => f.frame_type) =
      ["jump_cut", "scene_interval", "scene_interval", "scene_interval",
        "scene_interval", "scene_interval"] ∧
    sentinelOnlyFrames.map (fun f => f.timestamp) = [0, 6, 12, 18, 24, 299/10] ∧
    (∀ f ∈ sentinelOnlyFrames, f.frame_type ≠ "interval") := by
  decide

/-- Claim C3 (amended): the orchestrator falls back to uniform-interval
extraction exactly when the candidate list is empty (which the detector
never produces, since it always emits the t=0 sentinel), and every frame
produced by that fallback is tagged interval.  A sentinel-only list goes
down the scene path instead. -/
theorem empty_timestamps_interval_fallback {Img : Type} (extract : ℚ → Option Img)
    (L : ℚ) (max_frames : ℕ) :
    extract_frames_from_timestamps extract [] L max_frames =
      extract_interval_frames_to_target extract L max_frames ∧
    ∀ f ∈ extract_interval_frames_to_target extract L max_frames,
      f.frame_type = "interval" := by
  constructor
  · rfl
  · intro f hf
    exact intervalGo_frame_type extract L _ max_frames 0 f hf

/- ------------------------------------------------------------------ -/
/- Claim C4: duration conservation                                    -/
/- ------------------------------------------------------------------ -/

lemma durSum_cons {Img : Type} (f : FrameData Img) (l : List (FrameData Img)) :
    durSum (f :: l) = f.duration.getD 0 + durSum l := by
  simp [durSum]

lemma durSum_calculate {Img : Type} (L : ℚ) :
    ∀ (rest : List (FrameData Img)) (f : FrameData Img),
      durSum (calculate_frame_durations (f :: rest) L) = L - f.timestamp := by
  intro rest
  induction rest with
  | nil => intro f; simp [calculate_frame_durations, durSum]
  | cons g rest2 ih =>
    intro f
    rw [show calculate_frame_durations (f :: g :: rest2) L =
        { f with duration := some (g.timestamp - f.timestamp) } ::
          calculate_frame_durations (g :: rest2) L from rfl]
    rw [durSum_cons, ih g]
    simp

/-- The completed extraction of claim C4's counterexample: two boundaries
(t=0 sentinel and t=10) over a 30 s video with a budget of 2 frames, every
single-frame decode succeeding. -/
def shortBudgetFrames : List (FrameData Unit) :=
  calculate_frame_durations
    (extract_frames_from_timestamps (fun _ => some ())
      [(0, ⟨0, 0, 0, 0⟩), (10, ⟨0, 0, 0, 0⟩)] 30 2) 30

/-- Claim C4, counterexample.  Both scenes are allocated one frame each, so
both are sampled at their midpoints (5 s and 20 s); the first frame of the
final sorted list is at 5 s, not 0 s, and the annotated durations sum to
25, not to the 30 s video duration — an error of 5 s, far beyond any
floating-point tolerance. -/
theorem duration_sum_ne_video_length_cex :
    shortBudgetFrames.map (fun f => (f.timestamp, f.duration)) =
      [(5, some 15), (20, some 10)] ∧
    durSum shortBudgetFrames = 25 ∧ (25 : ℚ) ≠ 30 := by
  decide

/-- Claim C4 (amended): for any nonempty frame list, the annotated
represented-durations written by calculate_frame_durations sum to
video_length minus the FIRST frame's timestamp; the sum equals the video
duration exactly when the first frame sits at t=0, which the pipeline does
not guarantee (scenes allocated 1 or 2 frames are sampled away from their
left edge). -/
theorem duration_sum_eq_video_minus_first {Img : Type} (f : FrameData Img)
    (rest : List (FrameData Img)) (L : ℚ) :
    durSum (calculate_frame_durations (f :: rest) L) = L - f.timestamp :=
  durSum_calculate L rest f

/- ------------------------------------------------------------------ -/
/- Claim C6: the Intra-Scene Sampler                                  -/
/- ------------------------------------------------------------------ -/

/-- Claim C6: position selection of _extract_scene_frames.  One frame is
sampled at the scene midpoint; two at 1/3 and 2/3; three at start, middle
and end; for n > 3 at the start, at n-2 interior points i/(n-1) (for
i = 1..n-2) evenly spaced strictly inside (0,1), and at the end.  The 100%
position is adjusted to end - 0.1 s, and every computed timestamp is
clamped into [start, end - 0.1]. -/
theorem scene_sampler_positions_spec (n : ℕ) (scene : SceneI)
    (hdur : scene.duration = scene.stop - scene.start)
    (hgap : scene.start + 1 / 10 ≤ scene.stop) :
    scenePositions 1 = [1 / 2] ∧
    scenePositions 2 = [1 / 3, 2 / 3] ∧
    scenePositions 3 = [0, 1 / 2, 1] ∧
    (3 < n →
      scenePositions n =
        0 :: ((List.range (n - 2)).map (fun i : ℕ => ((i : ℚ) + 1) / ((n : ℚ) - 1)) ++ [1]) ∧
      (∀ i : ℕ, i < n - 2 → 0 < ((i : ℚ) + 1) / ((n : ℚ) - 1) ∧
        ((i : ℚ) + 1) / ((n : ℚ) - 1) < 1)) ∧
    (∀ p ∈ scenePositions n, scene.start ≤ sceneTimestamp scene p ∧
      sceneTimestamp scene p ≤ scene.stop - 1 / 10) ∧
    sceneTimestamp scene 1 = scene.stop - 1 / 10 ∧
    sceneTimestamp scene (1 / 2) =
      max scene.start (min ((scene.start + scene.stop) / 2) (scene.stop - 1 / 10)) := by
  refine ⟨by decide, by decide, by decide, ?_, ?_, ?_, ?_⟩
  · intro h4
    have hn : (4 : ℚ) ≤ (n : ℚ) := by exact_mod_cast (by omega : 4 ≤ n)
    have hcast : ((n - 2 : ℕ) : ℚ) + 1 = (n : ℚ) - 1 := by
      rw [Nat.cast_sub (by omega : 2 ≤ n)]
      ring
    constructor
    · rw [scenePositions, if_neg (by omega : ¬ n = 1), if_neg (by omega : ¬ n = 2),
        if_neg (by omega : ¬ n = 3), if_pos (by omega : 2 < n)]
      have hfun : (fun i : ℕ => ((i : ℚ) + 1) / (((n - 2 : ℕ) : ℚ) + 1)) =
          (fun i : ℕ => ((i : ℚ) + 1) / ((n : ℚ) - 1)) := by
        funext i
        rw [hcast]
      rw [hfun]
      simp
    · intro i hi
      have hiq : (i : ℚ) + 2 ≤ (n : ℚ) - 1 := by
        have : i + 3 ≤ n := by omega
        have h3 : ((i + 3 : ℕ) : ℚ) ≤ (n : ℚ) := by exact_mod_cast this
        push_cast at h3
        linarith
      constructor
      · apply div_pos (by positivity)
        linarith
      · rw [div_lt_one (by linarith)]
        linarith
  · intro p _
    unfold sceneTimestamp
    exact ⟨le_max_left _ _, max_le (by linarith) (min_le_right _ _)⟩
  · unfold sceneTimestamp
    rw [if_pos (le_refl (1 : ℚ)), min_self]
    exact max_eq_right (by linarith)
  · unfold sceneTimestamp
    rw [if_neg (by norm_num : ¬ (1 : ℚ) ≤ 1 / 2), hdur]
    have harith : scene.start + (scene.stop - scene.start) * (1 / 2) =
        (scene.start + scene.stop) / 2 := by ring
    rw [harith]

/-- Witness for scene_sampler_positions_spec at a 10-second scene and
n = 5. -/
theorem scene_sampler_positions_spec_witness :
    scenePositions 1 = [1 / 2] ∧
    scenePositions 2 = [1 / 3, 2 / 3] ∧
    scenePositions 3 = [0, 1 / 2, 1] ∧
    (3 < 5 →
      scenePositions 5 =
        0 :: ((List.range (5 - 2)).map (fun i : ℕ => ((i : ℚ) + 1) / ((5 : ℚ) - 1)) ++ [1]) ∧
      (∀ i : ℕ, i < 5 - 2 → 0 < ((i : ℚ) + 1) / ((5 : ℚ) - 1) ∧
        ((i : ℚ) + 1) / ((5 : ℚ) - 1) < 1)) ∧
    (∀ p ∈ scenePositions 5, (⟨0, 10, 10, 0⟩ : SceneI).start ≤
        sceneTimestamp ⟨0, 10, 10, 0⟩ p ∧
      sceneTimestamp ⟨0, 10, 10, 0⟩ p ≤ (⟨0, 10, 10, 0⟩ : SceneI).stop - 1 / 10) ∧
    sceneTimestamp ⟨0, 10, 10, 0⟩ 1 = (⟨0, 10, 10, 0⟩ : SceneI).stop - 1 / 10 ∧
    sceneTimestamp ⟨0, 10, 10, 0⟩ (1 / 2) =
      max (⟨0, 10, 10, 0⟩ : SceneI).start
        (min (((⟨0, 10, 10, 0⟩ : SceneI).start + (⟨0, 10, 10, 0⟩ : SceneI).stop) / 2)
          ((⟨0, 10, 10, 0⟩ : SceneI).stop - 1 / 10)) :=
  scene_sampler_positions_spec 5 ⟨0, 10, 10, 0⟩ (by decide) (by decide)

/- ------------------------------------------------------------------ -/
/- Claim C7: the global frame cap                                     -/
/- ------------------------------------------------------------------ -/

lemma intervalGo_length {Img : Type} (extract : ℚ → Option Img) (L itv : ℚ) :
    ∀ (fuel i : ℕ), (intervalGo extract L itv i fuel).length ≤ fuel := by
  intro fuel
  induction fuel with
  | zero => intro i; simp [intervalGo]
  | succ n ih =>
    intro i
    rw [intervalGo]
    split
    · simp
    · split
      · simpa using ih (i + 1)
      · exact le_trans (ih (i + 1)) (Nat.le_succ n)

lemma extract_frames_from_scenes_length {Img : Type} (extract : ℚ → Option Img)
    (scenes : List SceneI) (max_frames : ℕ) :
    (extract_frames_from_scenes extract scenes max_frames).length ≤ max_frames := by
  unfold extract_frames_from_scenes
  split
  · simp
  · exact List.length_take_le _ _

lemma extract_frames_from_timestamps_length {Img : Type} (extract : ℚ → Option Img)
    (ts : List (ℚ × Metrics)) (L : ℚ) (max_frames : ℕ) :
    (extract_frames_from_timestamps extract ts L max_frames).length ≤ max_frames := by
  unfold extract_frames_from_timestamps
  split
  · exact intervalGo_length extract L _ max_frames 0
  · exact extract_frames_from_scenes_length extract _ max_frames

lemma calculate_frame_durations_length {Img : Type} (L : ℚ) :
    ∀ (l : List (FrameData Img)), (calculate_frame_durations l L).length = l.length := by
  intro l
  induction l with
  | nil => rfl
  | cons f rest ih =>
    cases rest with
    | nil => rfl
    | cons g rest2 =>
      rw [show calculate_frame_durations (f :: g :: rest2) L =
          { f with duration := some (g.timestamp - f.timestamp) } ::
            calculate_frame_durations (g :: rest2) L from rfl]
      rw [List.length_cons, List.length_cons, ih]

/-- Claim C7: the orchestrator never returns more frames than the
configured maximum: the full extract_frames pipeline obeys the cap for any
decode and similarity primitives and any video, and so does
extract_frames_from_timestamps on every candidate list, covering both the
scene-based path and the uniform-interval fallback. -/
theorem orchestrator_cap_respected {Img : Type} (extract : ℚ → Option Img)
    (histSim deltaInt : Img → Img → ℚ) (resizeGray32 : Img → List (List ℚ))
    (dct : List (List ℚ) → List (List ℚ)) (threshold L : ℚ) (max_frames : ℕ) :
    (extract_frames extract histSim deltaInt resizeGray32 dct threshold L
      max_frames).length ≤ max_frames ∧
    ∀ ts : List (ℚ × Metrics),
      (extract_frames_from_timestamps extract ts L max_frames).length ≤ max_frames := by
  constructor
  · show (calculate_frame_durations
        (extract_frames_from_timestamps extract
          (detect_jump_cut_timestamps extract histSim deltaInt resizeGray32 dct threshold L)
          L max_frames) L).length ≤ max_frames
    rw [calculate_frame_durations_length]
    exact extract_frames_from_timestamps_length extract _ L max_frames
  · intro ts
    exact extract_frames_from_timestamps_length extract ts L max_frames

/- ------------------------------------------------------------------ -/
/- Claim C9: similarity identity                                      -/
/- ------------------------------------------------------------------ -/

lemma zip_self_filter_bne : ∀ (l : List Bool),
    (l.zip l).filter (fun p => p.1 != p.2) = [] := by
  intro l
  induction l with
  | nil => rfl
  | cons b bs ih => simp [List.filter, ih]

lemma flatten_take16_length : ∀ (rows : List (List ℚ)),
    (∀ r ∈ rows, 16 ≤ r.length) →
      ((rows.map (fun r => r.take 16)).flatten).length = 16 * rows.length := by
  intro rows
  induction rows with
  | nil => intro _; rfl
  | cons r rs ih =>
    intro h
    have hr := h r (List.mem_cons_self r rs)
    have hrs := ih (fun x hx => h x (List.mem_cons_of_mem r hx))
    simp only [List.map_cons, List.flatten_cons, List.length_append, List.length_take,
      List.length_cons, hrs]
    rw [min_eq_left hr]
    ring

/-- Claim C9: comparing an image buffer to itself yields perceptual-hash
similarity exactly 1 (the two 256-bit fingerprints coincide, so the
Hamming distance is 0) and delta-intensity similarity exactly 1 (the mean
luminance difference is 0 and exp 0 = 1).  The shape hypotheses record
that cv2.dct of the 32x32 resized grayscale image is again 32x32, which
makes the fingerprint 16 * 16 = 256 bits long. -/
theorem similarity_identity {Img : Type} (resizeGray32 : Img → List (List ℚ))
    (dct : List (List ℚ) → List (List ℚ)) (grayMean : Img → ℝ) (f : Img)
    (hrows : (dct (resizeGray32 f)).length = 32)
    (hcols : ∀ row ∈ dct (resizeGray32 f), row.length = 32) :
    _perceptual_hash resizeGray32 dct f f = 1 ∧
    ((phash resizeGray32 dct f).zip (phash resizeGray32 dct f)).filter
      (fun p => p.1 != p.2) = [] ∧
    (phash resizeGray32 dct f).length = 256 ∧
    _delta_intensity grayMean f f = 1 := by
  have hlen : (phash resizeGray32 dct f).length = 256 := by
    unfold phash
    rw [List.length_map]
    rw [flatten_take16_length ((dct (resizeGray32 f)).take 16)
      (fun r hr => by rw [hcols r (List.mem_of_mem_take hr)]; norm_num)]
    rw [List.length_take, hrows]
    norm_num
  refine ⟨?_, zip_self_filter_bne _, hlen, ?_⟩
  · simp [_perceptual_hash, zip_self_filter_bne]
  · unfold _delta_intensity
    rw [sub_self, abs_zero, neg_zero, zero_div, Real.exp_zero]

/-- The 32x32 all-zero grayscale buffer used to witness
similarity_identity. -/
def constMat32 : List (List ℚ) := List.replicate 32 (List.replicate 32 0)

/-- Witness for similarity_identity on a unit image whose resized
grayscale is the zero 32x32 matrix, with the DCT taken as the identity. -/
theorem similarity_identity_witness :
    _perceptual_hash (fun _ : Unit => constMat32) id () () = 1 ∧
    ((phash (fun _ : Unit => constMat32) id ()).zip
      (phash (fun _ : Unit => constMat32) id ())).filter (fun p => p.1 != p.2) = [] ∧
    (phash (fun _ : Unit => constMat32) id ()).length = 256 ∧
    _delta_intensity (fun _ : Unit => (0 : ℝ)) () () = 1 :=
  similarity_identity (fun _ : Unit => constMat32) id (fun _ => (0 : ℝ)) ()
    (by decide) (by decide)

/- ------------------------------------------------------------------ -/
/- Claim C10: deterministic encoding                                  -/
/- ------------------------------------------------------------------ -/

/-- Claim C10: to_base64 is deterministic in the buffer and the
size/quality settings.  The only run-dependent input is the wall-clock
second used in the temporary file name; since the method reads back
exactly the file it just wrote, the produced data URI is identical across
any two invocation times, hence encoding the same buffer twice with the
same settings is byte-identical. -/
theorem to_base64_time_independent {Img : Type} (toPilRGB : Img → Img)
    (jpegSave : Img → ℕ → List ℕ) (jpegLoad : List ℕ → Img) (dims : Img → ℕ × ℕ)
    (resize : Img → ℕ → ℕ → Img) (b64encode : List ℕ → String)
    (max_size quality : ℕ) (now1 now2 : ℕ) (frame_timestamp : ℚ) (image : Img) :
    to_base64 toPilRGB jpegSave jpegLoad dims resize b64encode max_size quality now1
        frame_timestamp image =
      to_base64 toPilRGB jpegSave jpegLoad dims resize b64encode max_size quality now2
        frame_timestamp image := by
  have h : ∀ now : ℕ,
      fsRead (fsWrite [] (tempName frame_timestamp now) (jpegSave (toPilRGB image) quality))
        (tempName frame_timestamp now) = some (jpegSave (toPilRGB image) quality) := by
    intro now
    simp [fsRead, fsWrite, List.find?]
  unfold to_base64
  simp only [h]
